import Mathlib

/-!
Verification of the `TaskManager` component of `src/main.py`.

Python values are modelled by the inductive `Value`, Python dicts (in
particular Task objects, which the source represents as plain dicts) by
association lists `Dict` that keep insertion order, as Python dicts do.
`datetime` values are modelled as integer timestamps; `datetime.now()` is an
explicit `now : Int` argument and `datetime.datetime.fromisoformat` an explicit
`parse : String → Option Int` argument (`none` models a raised `ValueError`).
A raising Python call is modelled with `Except`; since a raise can leave the
manager state partially mutated, the fallible operations return the state next
to the `Except` result instead of inside it.  Calls to `notifyObservers` are
recorded in an `events` log on the state: the source's observers receive the
event and the task, and their own exceptions are swallowed (lines 66-71), so
the log is a complete model of what observers can see.
-/

namespace TaskMgr

/-- Model of the Python values the manager itself stores on a task: integers
(ids and timestamps), strings (titles, priorities, descriptions), booleans
(the `completed` flag) and `None`. -/
inductive Value : Type where
  | vInt : Int → Value
  | vStr : String → Value
  | vBool : Bool → Value
  | vNone : Value
deriving DecidableEq, Repr

/-- A Python dict with string keys, in insertion order. -/
abbrev Dict := List (String × Value)

/-- Python `d[k]` for the keys the source reads (they are always present on
the dicts the source builds; a missing key yields `vNone`). -/
def dget (d : Dict) (k : String) : Value :=
  match d.find? (fun p => p.1 == k) with
  | some p => p.2
  | none => Value.vNone

/-- Python `d.get(k, dflt)`. -/
def dgetD (d : Dict) (k : String) (dflt : Value) : Value :=
  match d.find? (fun p => p.1 == k) with
  | some p => p.2
  | none => dflt

/-- Python `k in d`. -/
def hasKey (d : Dict) (k : String) : Bool :=
  d.any (fun p => p.1 == k)

/-- Python `d[k] = v`: overwrite in place when the key exists (its position in
insertion order is kept), otherwise append the new key at the end. -/
def dset (d : Dict) (k : String) (v : Value) : Dict :=
  if d.any (fun p => p.1 == k) then
    d.map (fun p => if p.1 == k then (k, v) else p)
  else d ++ [(k, v)]

/-- Python truthiness for the modelled values. -/
def truthy : Value → Bool
  | .vInt n => n != 0
  | .vStr s => s != ""
  | .vBool b => b
  | .vNone => false

/-- Python `__len__` for the values validateTask may measure (the titles the
manager handles are strings; other values are only reached on paths the
source never takes). -/
def pyLen : Value → Nat
  | .vStr s => s.length
  | _ => 0

instance {ε α : Type} [DecidableEq ε] [DecidableEq α] : DecidableEq (Except ε α) := fun x y =>
  match x, y with
  | .ok a, .ok b => if h : a = b then isTrue (by rw [h]) else isFalse (by simp [h])
  | .ok _, .error _ => isFalse (by simp)
  | .error _, .ok _ => isFalse (by simp)
  | .error a, .error b => if h : a = b then isTrue (by rw [h]) else isFalse (by simp [h])

/-- The exceptions the manager can raise. -/
inductive Err : Type where
  /-- `Exception(False)` raised inside `validateTask` (line 31), and the
  unreachable `Exception('Invalid task')` of line 26: the spec's `InvalidTask`. -/
  | invalidTask : Err
  /-- `ValueError` raised by `datetime.fromisoformat` on the recorded string
  (line 16): the spec's `InvalidDueDate`. -/
  | invalidDueDate : String → Err
deriving DecidableEq, Repr

/-- The `TaskManager` state: the two collections, the id counter, and the log
of `notifyObservers` calls (event name, task payload). -/
structure TMState : Type where
  tasks : List Dict
  completedTasks : List Dict
  idCounter : Nat
  events : List (String × Dict)
deriving DecidableEq, Repr

/-- `TaskManager.__init__` (lines 5-9). -/
def initState : TMState :=
  { tasks := [], completedTasks := [], idCounter := 0, events := [] }

/-- `validateTask` (lines 28-32), after the fixed-latency sleep.  The second
disjunct transcribes the source's `len == 0 and (len == 0) == 0` literally;
in Python `(len == 0) == 0` compares a bool with the int 0, which is exactly
`(len == 0) == False`. -/
def validateTask (task : Dict) : Except Err Bool :=
  if !truthy (dget task "title")
      || (pyLen (dget task "title") == 0 && ((pyLen (dget task "title") == 0) == false)) then
    Except.error Err.invalidTask
  else Except.ok true

/-- The task dict built on lines 12-19 (`dd` is the already-parsed dueDate). -/
def mkTask (idv : Int) (title priority dd : Value) (now : Int) : Dict :=
  [("id", Value.vInt idv), ("title", title), ("priority", priority),
   ("dueDate", dd), ("completed", Value.vBool false), ("createdAt", Value.vInt now)]

/-- Line 16, `datetime.datetime.fromisoformat(dueDate) if dueDate else None`:
parse a truthy dueDate (raising `ValueError` on an unparsable string, and a
`TypeError` — also folded into `invalidDueDate` — on a truthy non-string),
store `None` for a falsy one. -/
def ddEval (parse : String → Option Int) (dueDate : Value) : Except Err Value :=
  if truthy dueDate then
    match dueDate with
    | .vStr str =>
      match parse str with
      | some t => Except.ok (Value.vInt t)
      | none => Except.error (Err.invalidDueDate str)
    | _ => Except.error (Err.invalidDueDate "")
  else Except.ok Value.vNone

/-- `addTask` (lines 11-26).  Steps in source order: build the task dict —
`fromisoformat` can raise here, before anything is mutated —, then
`idCounter += 1`, then await validation (which can raise `invalidTask`), and
only on success append to `tasks` and notify `taskAdded`. -/
def addTask (parse : String → Option Int) (now : Int) (s : TMState)
    (title priority dueDate : Value) : Except Err Dict × TMState :=
  match ddEval parse dueDate with
  | .error e => (Except.error e, s)
  | .ok dd =>
    let task := mkTask (s.idCounter + 1) title priority dd now
    let s1 := { s with idCounter := s.idCounter + 1 }
    match validateTask task with
    | .error e => (Except.error e, s1)
    | .ok isValid =>
      if isValid then
        (Except.ok task,
         { s1 with tasks := s1.tasks ++ [task],
                   events := s1.events ++ [("taskAdded", task)] })
      else (Except.error Err.invalidTask, s1)

/-- `addTask` called without a priority argument: Python fills in the default
parameter value `'medium'` (line 11). -/
def addTaskNoPrio (parse : String → Option Int) (now : Int) (s : TMState)
    (title dueDate : Value) : Except Err Dict × TMState :=
  addTask parse now s title (Value.vStr "medium") dueDate

/-- `completeTask` (lines 34-44): find the first open task with the id, set
`completed`/`completedAt` on it, append it to `completedTasks`, remove it from
`tasks`, notify `taskCompleted`, return it; otherwise return `None`. -/
def completeTask (now : Int) (s : TMState) (taskId : Value) : Option Dict × TMState :=
  match List.findIdx? (fun t => dget t "id" == taskId) s.tasks with
  | some i =>
    let t0 := (s.tasks[i]?).getD []
    let t1 := dset (dset t0 "completed" (Value.vBool true)) "completedAt" (Value.vInt now)
    (some t1,
     { s with tasks := s.tasks.eraseIdx i,
              completedTasks := s.completedTasks ++ [t1],
              events := s.events ++ [("taskCompleted", t1)] })
  | none => (none, s)

/-- `updateTask` (lines 52-57): on the first open task with the id, assign
every key of `updates` — declared field or not — in iteration (= insertion)
order, then notify `taskUpdated`; silently do nothing when the id is absent. -/
def updateTask (s : TMState) (taskId : Value) (updates : List (String × Value)) : TMState :=
  match List.findIdx? (fun t => dget t "id" == taskId) s.tasks with
  | some i =>
    let t0 := (s.tasks[i]?).getD []
    let t1 := updates.foldl (fun t kv => dset t kv.1 kv.2) t0
    { s with tasks := s.tasks.set i t1, events := s.events ++ [("taskUpdated", t1)] }
  | none => s

/-- `getTasksByPriority` (lines 46-50).  The loop body only runs
`asyncio.get_event_loop().call_soon(...)`, which SCHEDULES a callback on the
event loop; nothing is appended to `results` before `return results`, so the
value the call returns is the empty list. -/
def getTasksByPriority (_s : TMState) (_priority : Value) : List Dict := []

/-- The contents of that same `results` list after the event loop later runs
the scheduled callbacks (with `self.tasks` unchanged in between): each lambda
closes over the loop variable `i` itself, which equals `len(self.tasks) - 1`
once the loop has finished, so every callback tests and appends the LAST open
task. -/
def getTasksByPriorityAfterDrain (s : TMState) (priority : Value) : List Dict :=
  match s.tasks.getLast? with
  | none => []
  | some last =>
    if dget last "priority" == priority then List.replicate s.tasks.length last
    else []

/-- Modelled from the spec (§4.4): the synchronous, deterministic filter that
`getTasksByPriority` is required to compute and return within the same call. -/
def getTasksByPrioritySpec (s : TMState) (priority : Value) : List Dict :=
  s.tasks.filter (fun t => dget t "priority" == priority)

/-- Python `t['dueDate'] < now` on the values the filter of line 76 lets
through (stored due dates are parsed timestamps, modelled as `vInt`). -/
def dueLt (v : Value) (now : Int) : Bool :=
  match v with
  | .vInt t => t < now
  | _ => false

/-- The sort key of line 77, `lambda x: x['dueDate']`, on the tasks that
survive the filter (their `dueDate` is a timestamp). -/
def dueKey (t : Dict) : Int :=
  match dget t "dueDate" with
  | .vInt n => n
  | _ => 0

/-- Ordering by the sort key, as Python `sorted` compares the filtered tasks. -/
def dueLE (a b : Dict) : Prop := dueKey a ≤ dueKey b

instance : DecidableRel dueLE := fun a b =>
  inferInstanceAs (Decidable (dueKey a ≤ dueKey b))

instance : IsTotal Dict dueLE := ⟨fun a b => Int.le_total (dueKey a) (dueKey b)⟩

instance : IsTrans Dict dueLE := ⟨fun _ _ _ => Int.le_trans⟩

/-- `getOverdueTasks` (lines 73-78): keep the open tasks with a truthy
`dueDate` strictly before `now` and a falsy `completed` flag, sorted ascending
by `dueDate` (Python `sorted` is a stable sort, modelled by `insertionSort`). -/
def getOverdueTasks (now : Int) (s : TMState) : List Dict :=
  List.insertionSort dueLE
    (s.tasks.filter (fun t =>
      truthy (dget t "dueDate") && dueLt (dget t "dueDate") now
        && !truthy (dget t "completed")))

/-- The stats record built by `getTaskStats`. -/
structure Stats : Type where
  total : Nat
  completed : Nat
  pending : Nat
  overdue : Nat
  completionRate : ℚ
deriving DecidableEq, Repr

/-- `getTaskStats` (lines 91-101).  The nested `calculateCompletionRate`
divides by `len(self.tasks) + len(self.completedTasks)` with no guard, so the
whole call raises `ZeroDivisionError` exactly when both collections are empty;
otherwise the exact quotient is returned (modelled in `ℚ`). -/
def getTaskStats (now : Int) (s : TMState) : Except String Stats :=
  if s.tasks.length + s.completedTasks.length == 0 then
    Except.error "ZeroDivisionError"
  else
    Except.ok
      { total := s.tasks.length + s.completedTasks.length
        completed := s.completedTasks.length
        pending := s.tasks.length
        overdue := (getOverdueTasks now s).length
        completionRate :=
          (s.completedTasks.length : ℚ) /
            ((s.tasks.length : ℚ) + (s.completedTasks.length : ℚ)) * 100 }

/-- ASCII model of Python `str.lower()` on one character. -/
def lowerChar (c : Char) : Char :=
  if 65 ≤ c.toNat ∧ c.toNat ≤ 90 then Char.ofNat (c.toNat + 32) else c

/-- ASCII model of Python `str.lower()`. -/
def lowerStr (s : String) : String := String.mk (s.data.map lowerChar)

/-- Helper for Python `in`: does `hay` start with `needle`. -/
def isPre : List Char → List Char → Bool
  | [], _ => true
  | _ :: _, [] => false
  | a :: as, b :: bs => a == b && isPre as bs

/-- Helper for Python `in`: does `needle` occur contiguously in `hay`. -/
def isSub (needle hay : List Char) : Bool :=
  match hay with
  | [] => isPre needle []
  | _ :: t => isPre needle hay || isSub needle t

/-- Python `needle in hay` on strings: contiguous-substring test. -/
def strIn (needle hay : String) : Bool := isSub needle.data hay.data

/-- The string behind a `Value` on which the source calls `.lower()` (the
titles and descriptions it reaches are strings). -/
def pyStr : Value → String
  | .vStr s => s
  | _ => ""

/-- `searchTasks` (lines 103-104): case-insensitive substring match of the
query against `t['title']` and against `t.get('description', '')`, over the
open collection only. -/
def searchTasks (s : TMState) (query : String) : List Dict :=
  s.tasks.filter (fun t =>
    strIn (lowerStr query) (lowerStr (pyStr (dget t "title")))
      || strIn (lowerStr query) (lowerStr (pyStr (dgetD t "description" (Value.vStr "")))))

/-- One entry of the result list of `bulkAddTasks`: a task, or the
`{'error': str(e)}` descriptor recorded for a raising item. -/
inductive BulkResult : Type where
  | task : Dict → BulkResult
  | err : Err → BulkResult
deriving DecidableEq, Repr

/-- `bulkAddTasks` (lines 80-89).  Line 81 only BUILDS the coroutine objects;
each one's body first runs when the loop awaits it, in input order, so the
items are added sequentially, each against the state left by the previous
item, and a raising item contributes `{'error': ...}` at its own position
without stopping the loop. -/
def bulkAddTasks (parse : String → Option Int) (now : Int) (s : TMState) :
    List Dict → List BulkResult × TMState
  | [] => ([], s)
  | d :: rest =>
    match addTask parse now s (dgetD d "title" Value.vNone)
        (dgetD d "priority" Value.vNone) (dgetD d "dueDate" Value.vNone) with
    | (.ok t, s1) =>
      let r := bulkAddTasks parse now s1 rest
      (BulkResult.task t :: r.1, r.2)
    | (.error e, s1) =>
      let r := bulkAddTasks parse now s1 rest
      (BulkResult.err e :: r.1, r.2)

/-- Modelled from the library: `datetime.fromisoformat` on the strings the
driver uses — the two well-formed dates parse to their timestamps, everything
else (e.g. `'invalid-date'`) raises `ValueError`. -/
def parseDemo : String → Option Int
  | "2024-01-15" => some 1705276800
  | "2024-01-20" => some 1705708800
  | _ => none

/-- One public mutating operation of the manager, as implemented.  The query
operations do not change the state, and `bulkAddTasks` is a sequence of
`add` steps, so this generates every reachable state. -/
inductive Step (parse : String → Option Int) : TMState → TMState → Prop where
  | add (now : Int) (title priority dueDate : Value) (s : TMState) :
      Step parse s (addTask parse now s title priority dueDate).2
  | complete (now : Int) (taskId : Value) (s : TMState) :
      Step parse s (completeTask now s taskId).2
  | update (taskId : Value) (updates : List (String × Value)) (s : TMState) :
      Step parse s (updateTask s taskId updates)

/-- States reachable from a fresh manager through the implemented operations. -/
def Reachable (parse : String → Option Int) (s : TMState) : Prop :=
  Relation.ReflTransGen (Step parse) initState s

/-- Like `Step`, but `updateTask` is never handed a patch that writes the
`id` key (the patch may still contain arbitrary other keys). -/
inductive SafeStep (parse : String → Option Int) : TMState → TMState → Prop where
  | add (now : Int) (title priority dueDate : Value) (s : TMState) :
      SafeStep parse s (addTask parse now s title priority dueDate).2
  | complete (now : Int) (taskId : Value) (s : TMState) :
      SafeStep parse s (completeTask now s taskId).2
  | update (taskId : Value) (updates : List (String × Value)) (s : TMState)
      (h : ∀ kv ∈ updates, kv.1 ≠ "id") :
      SafeStep parse s (updateTask s taskId updates)

/-- States reachable from a fresh manager when no update patch writes `id`. -/
def SafeReachable (parse : String → Option Int) (s : TMState) : Prop :=
  Relation.ReflTransGen (SafeStep parse) initState s

/-- The ids currently in the open collection. -/
def openIds (s : TMState) : List Value := s.tasks.map (fun t => dget t "id")

/-- The ids currently in the completed collection. -/
def doneIds (s : TMState) : List Value := s.completedTasks.map (fun t => dget t "id")

/-- All ids, open first. -/
def allIds (s : TMState) : List Value := openIds s ++ doneIds s

/-- Does `addTask` accept this dueDate argument (line 16 does not raise). -/
def ddOk (parse : String → Option Int) (dueDate : Value) : Bool :=
  if truthy dueDate then
    match dueDate with
    | .vStr str => (parse str).isSome
    | _ => false
  else true

/-- Does the `addTask` call that `bulkAddTasks` makes for item `d` succeed. -/
def itemOk (parse : String → Option Int) (d : Dict) : Bool :=
  ddOk parse (dgetD d "dueDate" Value.vNone) && truthy (dgetD d "title" Value.vNone)

/-- Shape of one `bulkAddTasks` result entry: `true` for a task, `false` for
an error descriptor. -/
def resultKind : BulkResult → Bool
  | .task _ => true
  | .err _ => false

/-! Concrete fixtures, mirroring the driver's data (`demonstrateUsage`). -/

/-- The manager after one successful `addTask('Complete project', 'high', '2024-01-15')`. -/
def stateOne : TMState :=
  (addTask parseDemo 0 initState (Value.vStr "Complete project") (Value.vStr "high")
    (Value.vStr "2024-01-15")).2

/-- The task living in `stateOne`. -/
def taskOne : Dict :=
  mkTask 1 (Value.vStr "Complete project") (Value.vStr "high") (Value.vInt 1705276800) 0

/-- `stateOne` after `completeTask(1)` at time 5. -/
def stateDone : TMState := (completeTask 5 stateOne (Value.vInt 1)).2

/-- Kind of an `addTask` outcome: `true` for a created task, `false` for a
raised exception. -/
def exceptKind : Except Err Dict → Bool
  | .ok _ => true
  | .error _ => false

/-- All stored ids are distinct integers bounded by the id counter. -/
def GoodIds (s : TMState) : Prop :=
  (allIds s).Nodup ∧ ∀ v ∈ allIds s, ∃ n : ℕ, v = Value.vInt (n : Int) ∧ n ≤ s.idCounter

/-- States of the counterexample trace: add task 1, add task 2, complete
task 2, then `updateTask(1, patch)` with a patch whose key is the declared
field `id` — which line 56 writes through like any other key. -/
def cexS1 : TMState :=
  (addTask parseDemo 0 initState (Value.vStr "A") (Value.vStr "medium") Value.vNone).2

/-- Second trace state: task 2 added. -/
def cexS2 : TMState :=
  (addTask parseDemo 0 cexS1 (Value.vStr "B") (Value.vStr "low") Value.vNone).2

/-- Third trace state: task 2 completed. -/
def cexS3 : TMState := (completeTask 3 cexS2 (Value.vInt 2)).2

/-- Final trace state: open task 1 renumbered to id 2 by `updateTask`. -/
def cexS4 : TMState := updateTask cexS3 (Value.vInt 1) [("id", Value.vInt 2)]

/-! Helper lemmas about the dict model. -/

theorem find?_keyOverwrite_self (d : Dict) (k : String) (v : Value)
    (h : d.any (fun p => p.1 == k) = true) :
    List.find? (fun p => p.1 == k) (d.map (fun p => if p.1 == k then (k, v) else p)) =
      some (k, v) := by
  induction d with
  | nil => simp at h
  | cons p rest ih =>
    by_cases hp : (p.1 == k) = true
    · simp [List.find?, hp]
    · have hp' : (p.1 == k) = false := by simpa using hp
      simp only [List.any_cons, hp', Bool.false_or] at h
      simp only [List.map_cons, hp', Bool.false_eq_true, if_false]
      rw [List.find?_cons_of_neg _ (by simpa using hp)]
      exact ih h

theorem find?_keyOverwrite_ne (d : Dict) (k k' : String) (v : Value) (h : k ≠ k') :
    List.find? (fun p => p.1 == k') (d.map (fun p => if p.1 == k then (k, v) else p)) =
      List.find? (fun p => p.1 == k') d := by
  induction d with
  | nil => rfl
  | cons p rest ih =>
    by_cases hp : (p.1 == k) = true
    · have hk : (p.1 == k') = false := by
        have hpk : p.1 = k := by simpa using hp
        simp [hpk, h]
      simp only [List.map_cons, hp, if_true]
      rw [List.find?_cons_of_neg _ (by simp [h]), List.find?_cons_of_neg _ (by simp [hk])]
      exact ih
    · have hp' : (p.1 == k) = false := by simpa using hp
      simp only [List.map_cons, hp', Bool.false_eq_true, if_false]
      by_cases hk : (p.1 == k') = true
      · simp [List.find?, hk]
      · rw [List.find?_cons_of_neg _ (by simpa using hk),
            List.find?_cons_of_neg _ (by simpa using hk)]
        exact ih

theorem find?_eq_none_of_not_any (d : Dict) (k : String)
    (h : d.any (fun p => p.1 == k) = false) :
    List.find? (fun p => p.1 == k) d = none := by
  induction d with
  | nil => rfl
  | cons p rest ih =>
    simp only [List.any_cons, Bool.or_eq_false_iff] at h
    rw [List.find?_cons_of_neg _ (by simp [h.1])]
    exact ih h.2

theorem dget_dset_self (d : Dict) (k : String) (v : Value) : dget (dset d k v) k = v := by
  unfold dset
  cases h : d.any (fun p => p.1 == k) with
  | true =>
    rw [if_pos rfl]
    unfold dget
    rw [find?_keyOverwrite_self d k v h]
  | false =>
    rw [if_neg (by simp)]
    unfold dget
    rw [List.find?_append, find?_eq_none_of_not_any d k h]
    simp [List.find?]

theorem dget_dset_ne (d : Dict) (k k' : String) (v : Value) (h : k ≠ k') :
    dget (dset d k v) k' = dget d k' := by
  unfold dset
  cases ha : d.any (fun p => p.1 == k) with
  | true =>
    rw [if_pos rfl]
    unfold dget
    rw [find?_keyOverwrite_ne d k k' v h]
  | false =>
    rw [if_neg (by simp)]
    unfold dget
    rw [List.find?_append]
    have hkk : (k == k') = false := by simp [h]
    have h1 : List.find? (fun p => p.1 == k') [(k, v)] = none := by
      simp [List.find?, hkk]
    rw [h1]
    cases d.find? (fun p => p.1 == k') <;> rfl

theorem dget_foldl_dset_ne (updates : List (String × Value)) (d : Dict) (k : String)
    (h : ∀ kv ∈ updates, kv.1 ≠ k) :
    dget (updates.foldl (fun t kv => dset t kv.1 kv.2) d) k = dget d k := by
  induction updates generalizing d with
  | nil => rfl
  | cons kv rest ih =>
    simp only [List.foldl_cons]
    rw [ih _ (fun x hx => h x (List.mem_cons_of_mem kv hx)),
        dget_dset_ne _ _ _ _ (h kv (List.mem_cons_self kv rest))]

theorem dgetD_of_not_hasKey (d : Dict) (k : String) (dflt : Value)
    (h : hasKey d k = false) : dgetD d k dflt = dflt := by
  unfold dgetD
  rw [find?_eq_none_of_not_any d k h]

/-! Reading the freshly built task dict. -/

theorem dget_mkTask_id (idv : Int) (title priority dd : Value) (now : Int) :
    dget (mkTask idv title priority dd now) "id" = Value.vInt idv := rfl

theorem dget_mkTask_title (idv : Int) (title priority dd : Value) (now : Int) :
    dget (mkTask idv title priority dd now) "title" = title := rfl

theorem dget_mkTask_priority (idv : Int) (title priority dd : Value) (now : Int) :
    dget (mkTask idv title priority dd now) "priority" = priority := rfl

theorem dget_mkTask_dueDate (idv : Int) (title priority dd : Value) (now : Int) :
    dget (mkTask idv title priority dd now) "dueDate" = dd := rfl

theorem dget_mkTask_completed (idv : Int) (title priority dd : Value) (now : Int) :
    dget (mkTask idv title priority dd now) "completed" = Value.vBool false := rfl

/-! Case analysis of `validateTask` and `addTask`. -/

/-- The source's `len == 0 and (len == 0) == 0` disjunct is identically false,
so `validateTask` raises exactly on a falsy title. -/
theorem validateTask_eq (t : Dict) :
    validateTask t =
      if truthy (dget t "title") then Except.ok true else Except.error Err.invalidTask := by
  unfold validateTask
  cases h : truthy (dget t "title") <;>
    cases hl : (pyLen (dget t "title") == 0) <;> simp [h, hl]

theorem addTask_ddErr (parse : String → Option Int) (now : Int) (s : TMState)
    (title priority dueDate : Value) (e : Err) (hdd : ddEval parse dueDate = Except.error e) :
    addTask parse now s title priority dueDate = (Except.error e, s) := by
  unfold addTask
  rw [hdd]

theorem addTask_invalid (parse : String → Option Int) (now : Int) (s : TMState)
    (title priority dueDate dd : Value) (hdd : ddEval parse dueDate = Except.ok dd)
    (ht : truthy title = false) :
    addTask parse now s title priority dueDate =
      (Except.error Err.invalidTask, { s with idCounter := s.idCounter + 1 }) := by
  unfold addTask
  rw [hdd]
  simp only [validateTask_eq, dget_mkTask_title, ht, Bool.false_eq_true, if_false]

theorem addTask_success (parse : String → Option Int) (now : Int) (s : TMState)
    (title priority dueDate dd : Value) (hdd : ddEval parse dueDate = Except.ok dd)
    (ht : truthy title = true) :
    addTask parse now s title priority dueDate =
      (Except.ok (mkTask (s.idCounter + 1) title priority dd now),
       { s with idCounter := s.idCounter + 1,
                tasks := s.tasks ++ [mkTask (s.idCounter + 1) title priority dd now],
                events := s.events ++ [("taskAdded", mkTask (s.idCounter + 1) title priority dd now)] }) := by
  unfold addTask
  rw [hdd]
  simp only [validateTask_eq, dget_mkTask_title, ht, if_true]

/-- C1: the claim says `updateTask` writes only declared Task fields and that
no injected key is observable afterwards.  The code (line 56) assigns every
patch key unguarded — the in-source comment calls it the prototype-pollution
bug — so after `updateTask(1, patch)` with the undeclared key `__proto__`
that key is observable on the stored task.  This exhibits the divergence. -/
theorem updateTask_writes_undeclared_key :
    hasKey ((stateOne.tasks[0]?).getD []) "__proto__" = false ∧
    hasKey (((updateTask stateOne (Value.vInt 1)
        [("__proto__", Value.vBool true)]).tasks[0]?).getD []) "__proto__" = true ∧
    dget (((updateTask stateOne (Value.vInt 1)
        [("__proto__", Value.vBool true)]).tasks[0]?).getD []) "__proto__" =
      Value.vBool true := by
  decide

/-- C2: the claim says `getTasksByPriority` computes and returns the matching
open tasks within the same synchronous call.  The code (line 49) only
schedules deferred callbacks and returns the still-empty `results` list, so
on a state holding a high-priority task the call returns `[]` while the
spec's synchronous filter returns that task.  This exhibits the divergence. -/
theorem getTasksByPriority_returns_empty_sync :
    getTasksByPriority stateOne (Value.vStr "high") = [] ∧
    getTasksByPrioritySpec stateOne (Value.vStr "high") = [taskOne] ∧
    taskOne ∈ stateOne.tasks := by
  decide

/-- C3: the claim says `completionRate` is `0` when both collections are
empty.  The code's `calculateCompletionRate` (line 99) divides with no guard,
so on the empty manager `getTaskStats` raises `ZeroDivisionError` instead of
returning `0`; the all-completed case does return `100`.  This exhibits the
divergence on the empty manager. -/
theorem getTaskStats_zero_total_raises :
    getTaskStats 0 initState = Except.error "ZeroDivisionError" ∧
    getTaskStats 9 stateDone =
      Except.ok { total := 1, completed := 1, pending := 0, overdue := 0,
                  completionRate := 100 } := by
  constructor
  · rfl
  · have h1 : getTaskStats 9 stateDone =
        Except.ok { total := 1, completed := 1, pending := 0, overdue := 0,
                    completionRate :=
                      ((1 : ℕ) : ℚ) / (((0 : ℕ) : ℚ) + ((1 : ℕ) : ℚ)) * 100 } := rfl
    have h2 : ((1 : ℕ) : ℚ) / (((0 : ℕ) : ℚ) + ((1 : ℕ) : ℚ)) * 100 = 100 := by
      push_cast
      norm_num
    rw [h1, h2]

/-- C5 counterexample: an `addTask` call whose title is empty AND whose
dueDate string is unparsable fails with `invalidDueDate` — raised on line 16
while the task dict is being built — not with `invalidTask`, and the id
counter has not even advanced.  So "every addTask call with an empty title
fails with InvalidTask" is false as stated. -/
theorem addTask_emptyTitle_badDate_not_invalidTask :
    addTask parseDemo 0 initState (Value.vStr "") (Value.vStr "low")
        (Value.vStr "invalid-date") =
      (Except.error (Err.invalidDueDate "invalid-date"), initState) ∧
    Err.invalidDueDate "invalid-date" ≠ Err.invalidTask := by
  decide

/-- C5 (amended): an `addTask` call with an empty title whose dueDate
argument is accepted by line 16 fails with `invalidTask`; the returned state
shows the task was not appended, no notification fired (`events` unchanged),
and the id counter was advanced and not rolled back. -/
theorem addTask_emptyTitle_fails_invalidTask (parse : String → Option Int) (now : Int)
    (s : TMState) (priority dueDate dd : Value)
    (hdd : ddEval parse dueDate = Except.ok dd) :
    addTask parse now s (Value.vStr "") priority dueDate =
      (Except.error Err.invalidTask, { s with idCounter := s.idCounter + 1 }) :=
  addTask_invalid parse now s (Value.vStr "") priority dueDate dd hdd rfl

/-- C5 witness: the amended statement at a concrete call. -/
theorem addTask_emptyTitle_fails_invalidTask_witness :
    ddEval parseDemo (Value.vStr "2024-01-20") = Except.ok (Value.vInt 1705708800) ∧
    addTask parseDemo 3 initState (Value.vStr "") (Value.vStr "low")
        (Value.vStr "2024-01-20") =
      (Except.error Err.invalidTask, { initState with idCounter := initState.idCounter + 1 }) :=
  ⟨rfl, addTask_emptyTitle_fails_invalidTask parseDemo 3 initState (Value.vStr "low")
    (Value.vStr "2024-01-20") (Value.vInt 1705708800) rfl⟩

/-- C9: an `addTask` call whose dueDate is a non-empty string the parser
rejects fails with `invalidDueDate` and returns the state completely
unchanged — id counter, both collections and the event log —, whereas (second
conjunct) an empty-title failure with an accepted dueDate leaves the counter
advanced by one. -/
theorem addTask_unparsableDate_no_mutation (parse : String → Option Int) (now : Int)
    (s : TMState) (title priority : Value) (str : String)
    (h1 : str ≠ "") (h2 : parse str = none) :
    addTask parse now s title priority (Value.vStr str) =
      (Except.error (Err.invalidDueDate str), s) ∧
    ∀ dueDate2 dd2, ddEval parse dueDate2 = Except.ok dd2 →
      (addTask parse now s (Value.vStr "") priority dueDate2).2 =
        { s with idCounter := s.idCounter + 1 } := by
  constructor
  · apply addTask_ddErr
    have ht : truthy (Value.vStr str) = true := by simp [truthy, h1]
    simp [ddEval, ht, h2]
  · intro dueDate2 dd2 hdd
    rw [addTask_invalid parse now s (Value.vStr "") priority dueDate2 dd2 hdd rfl]

/-- C9 witness: the statement at the driver's concrete unparsable date. -/
theorem addTask_unparsableDate_no_mutation_witness :
    "invalid-date" ≠ "" ∧ parseDemo "invalid-date" = none ∧
    (addTask parseDemo 0 stateOne (Value.vStr "Review code") (Value.vStr "medium")
        (Value.vStr "invalid-date") =
      (Except.error (Err.invalidDueDate "invalid-date"), stateOne) ∧
    ∀ dueDate2 dd2, ddEval parseDemo dueDate2 = Except.ok dd2 →
      (addTask parseDemo 0 stateOne (Value.vStr "") (Value.vStr "medium") dueDate2).2 =
        { stateOne with idCounter := stateOne.idCounter + 1 }) :=
  ⟨by decide, rfl,
    addTask_unparsableDate_no_mutation parseDemo 0 stateOne (Value.vStr "Review code")
      (Value.vStr "medium") "invalid-date" (by decide) rfl⟩

/-- C8: `getOverdueTasks` returns a permutation of exactly the open tasks
whose dueDate is set (truthy) and strictly before `now` and whose completed
flag is falsy, sorted ascending by dueDate; in particular every returned task
is open, has a set dueDate strictly before `now`, and is not completed. -/
theorem getOverdueTasks_sorted_filtered (now : Int) (s : TMState) :
    (getOverdueTasks now s).Perm
      (s.tasks.filter (fun t =>
        truthy (dget t "dueDate") && dueLt (dget t "dueDate") now
          && !truthy (dget t "completed"))) ∧
    List.Sorted dueLE (getOverdueTasks now s) ∧
    ∀ t ∈ getOverdueTasks now s,
      t ∈ s.tasks ∧ dget t "dueDate" ≠ Value.vNone ∧
        dueLt (dget t "dueDate") now = true ∧ truthy (dget t "completed") = false := by
  refine ⟨List.perm_insertionSort dueLE _, List.sorted_insertionSort dueLE _, ?_⟩
  intro t ht
  have hmem := (List.perm_insertionSort dueLE _).mem_iff.mp ht
  rw [List.mem_filter] at hmem
  obtain ⟨hopen, hpred⟩ := hmem
  simp only [Bool.and_eq_true, Bool.not_eq_true'] at hpred
  obtain ⟨⟨h1, h2⟩, h3⟩ := hpred
  refine ⟨hopen, ?_, h2, h3⟩
  intro hnone
  rw [hnone] at h1
  simp [truthy] at h1

/-- C8 witness: the statement evaluated on a concrete overdue state. -/
theorem getOverdueTasks_sorted_filtered_witness :
    (getOverdueTasks 1705276801 stateOne).Perm
      (stateOne.tasks.filter (fun t =>
        truthy (dget t "dueDate") && dueLt (dget t "dueDate") 1705276801
          && !truthy (dget t "completed"))) ∧
    List.Sorted dueLE (getOverdueTasks 1705276801 stateOne) ∧
    ∀ t ∈ getOverdueTasks 1705276801 stateOne,
      t ∈ stateOne.tasks ∧ dget t "dueDate" ≠ Value.vNone ∧
        dueLt (dget t "dueDate") 1705276801 = true ∧
        truthy (dget t "completed") = false :=
  getOverdueTasks_sorted_filtered 1705276801 stateOne

/-- C10: `searchTasks` reads only the open collection: its result is a
sublist of `s.tasks`, it is unchanged under any replacement of the completed
collection, and every returned task is a member of the open collection. -/
theorem searchTasks_only_open_collection (s : TMState) (q : String) :
    (searchTasks s q).Sublist s.tasks ∧
    (∀ c, searchTasks { s with completedTasks := c } q = searchTasks s q) ∧
    ∀ t ∈ searchTasks s q, t ∈ s.tasks := by
  refine ⟨List.filter_sublist _, fun c => rfl, ?_⟩
  intro t ht
  exact (List.filter_sublist _).subset ht

/-- C10 witness: the statement evaluated on a concrete state and query. -/
theorem searchTasks_only_open_collection_witness :
    (searchTasks stateOne "complete").Sublist stateOne.tasks ∧
    (∀ c, searchTasks { stateOne with completedTasks := c } "complete" =
      searchTasks stateOne "complete") ∧
    ∀ t ∈ searchTasks stateOne "complete", t ∈ stateOne.tasks :=
  searchTasks_only_open_collection stateOne "complete"

/-! Success-shape lemmas for `addTask`, shared by the bulk and default-priority
results. -/

/-- Whatever the inputs, a successful `addTask` stores the priority argument
it was handed, verbatim, on the created task. -/
theorem addTask_ok_priority (parse : String → Option Int) (now : Int) (s : TMState)
    (title priority dueDate : Value) (t : Dict) (s1 : TMState)
    (h : addTask parse now s title priority dueDate = (Except.ok t, s1)) :
    dget t "priority" = priority := by
  cases hdd : ddEval parse dueDate with
  | error e =>
    rw [addTask_ddErr parse now s title priority dueDate e hdd] at h
    simp at h
  | ok dd =>
    cases ht : truthy title with
    | false =>
      rw [addTask_invalid parse now s title priority dueDate dd hdd ht] at h
      simp at h
    | true =>
      rw [addTask_success parse now s title priority dueDate dd hdd ht] at h
      simp only [Prod.mk.injEq, Except.ok.injEq] at h
      rw [← h.1, dget_mkTask_priority]

/-- `ddEval` succeeds exactly when `ddOk` says so. -/
theorem ddEval_ok_or_err (parse : String → Option Int) (dueDate : Value) :
    (ddOk parse dueDate = true ∧ ∃ dd, ddEval parse dueDate = Except.ok dd) ∨
    (ddOk parse dueDate = false ∧ ∃ e, ddEval parse dueDate = Except.error e) := by
  unfold ddOk ddEval
  cases htr : truthy dueDate with
  | false =>
    left
    constructor
    · simp
    · exact ⟨Value.vNone, by simp⟩
  | true =>
    cases dueDate with
    | vStr str =>
      cases hp : parse str with
      | some tv =>
        left
        constructor
        · simp [hp]
        · exact ⟨Value.vInt tv, by simp [hp]⟩
      | none =>
        right
        constructor
        · simp [hp]
        · exact ⟨Err.invalidDueDate str, by simp [hp]⟩
    | vInt n =>
      right
      exact ⟨by simp, ⟨Err.invalidDueDate "", by simp⟩⟩
    | vBool b =>
      right
      exact ⟨by simp, ⟨Err.invalidDueDate "", by simp⟩⟩
    | vNone =>
      right
      exact ⟨by simp, ⟨Err.invalidDueDate "", by simp⟩⟩

/-- `addTask` succeeds exactly when the dueDate argument parses and the title
is truthy. -/
theorem addTask_isOk_eq (parse : String → Option Int) (now : Int) (s : TMState)
    (title priority dueDate : Value) :
    exceptKind (addTask parse now s title priority dueDate).1 =
      (ddOk parse dueDate && truthy title) := by
  rcases ddEval_ok_or_err parse dueDate with ⟨hok, dd, hdd⟩ | ⟨herr, e, hdd⟩
  · cases ht : truthy title with
    | true =>
      rw [addTask_success parse now s title priority dueDate dd hdd ht]
      simp [exceptKind, hok, ht]
    | false =>
      rw [addTask_invalid parse now s title priority dueDate dd hdd ht]
      simp [exceptKind, ht]
  · rw [addTask_ddErr parse now s title priority dueDate e hdd]
    simp [exceptKind, herr]

/-- C4 counterexample: `bulkAddTasks` hands `addTask` the explicit value
`d.get('priority')` (line 81), which is `None` for an item with no priority
entry, so Python's default parameter never applies: the single-item bulk add
of a priority-less item creates a task whose priority is `None`, not
`'medium'`.  So the claim is false as stated for the bulk path. -/
theorem bulkAdd_missing_priority_not_medium :
    (bulkAddTasks parseDemo 0 initState [[("title", Value.vStr "A")]]).1 =
      [BulkResult.task (mkTask 1 (Value.vStr "A") Value.vNone Value.vNone 0)] ∧
    dget (mkTask 1 (Value.vStr "A") Value.vNone Value.vNone 0) "priority" ≠
      Value.vStr "medium" := by
  decide

/-- C4 (amended): a direct `addTask` call without a priority argument creates
a task whose priority is `'medium'` (Python's default parameter), while the
`addTask` call `bulkAddTasks` makes for an item with no `priority` key
creates a task whose priority is `None` — the default is bypassed. -/
theorem priority_default_amended (parse : String → Option Int) (now : Int) (s : TMState)
    (title dueDate : Value) (d t t2 : Dict) (s1 s2 : TMState)
    (h1 : addTaskNoPrio parse now s title dueDate = (Except.ok t, s1))
    (h2 : hasKey d "priority" = false)
    (h3 : addTask parse now s (dgetD d "title" Value.vNone) (dgetD d "priority" Value.vNone)
        (dgetD d "dueDate" Value.vNone) = (Except.ok t2, s2)) :
    dget t "priority" = Value.vStr "medium" ∧ dget t2 "priority" = Value.vNone := by
  constructor
  · exact addTask_ok_priority parse now s title (Value.vStr "medium") dueDate t s1 h1
  · rw [dgetD_of_not_hasKey d "priority" Value.vNone h2] at h3
    exact addTask_ok_priority parse now s (dgetD d "title" Value.vNone) Value.vNone
      (dgetD d "dueDate" Value.vNone) t2 s2 h3

/-- C4 witness: the amended statement at concrete calls. -/
theorem priority_default_amended_witness :
    addTaskNoPrio parseDemo 0 initState (Value.vStr "T") Value.vNone =
      (Except.ok (mkTask 1 (Value.vStr "T") (Value.vStr "medium") Value.vNone 0),
       { tasks := [mkTask 1 (Value.vStr "T") (Value.vStr "medium") Value.vNone 0],
         completedTasks := [], idCounter := 1,
         events := [("taskAdded", mkTask 1 (Value.vStr "T") (Value.vStr "medium") Value.vNone 0)] }) ∧
    hasKey [("title", Value.vStr "A")] "priority" = false ∧
    addTask parseDemo 0 initState (dgetD [("title", Value.vStr "A")] "title" Value.vNone)
        (dgetD [("title", Value.vStr "A")] "priority" Value.vNone)
        (dgetD [("title", Value.vStr "A")] "dueDate" Value.vNone) =
      (Except.ok (mkTask 1 (Value.vStr "A") Value.vNone Value.vNone 0),
       { tasks := [mkTask 1 (Value.vStr "A") Value.vNone Value.vNone 0],
         completedTasks := [], idCounter := 1,
         events := [("taskAdded", mkTask 1 (Value.vStr "A") Value.vNone Value.vNone 0)] }) ∧
    (dget (mkTask 1 (Value.vStr "T") (Value.vStr "medium") Value.vNone 0) "priority" =
        Value.vStr "medium" ∧
      dget (mkTask 1 (Value.vStr "A") Value.vNone Value.vNone 0) "priority" = Value.vNone) :=
  ⟨by decide, by decide, by decide,
    priority_default_amended parseDemo 0 initState (Value.vStr "T") Value.vNone
      [("title", Value.vStr "A")] (mkTask 1 (Value.vStr "T") (Value.vStr "medium") Value.vNone 0)
      (mkTask 1 (Value.vStr "A") Value.vNone Value.vNone 0)
      { tasks := [mkTask 1 (Value.vStr "T") (Value.vStr "medium") Value.vNone 0],
        completedTasks := [], idCounter := 1,
        events := [("taskAdded", mkTask 1 (Value.vStr "T") (Value.vStr "medium") Value.vNone 0)] }
      { tasks := [mkTask 1 (Value.vStr "A") Value.vNone Value.vNone 0],
        completedTasks := [], idCounter := 1,
        events := [("taskAdded", mkTask 1 (Value.vStr "A") Value.vNone Value.vNone 0)] }
      (by decide) (by decide) (by decide)⟩

/-- C7: `bulkAddTasks` returns one entry per input item, in input order: the
result has the input's length, and position `i` holds a created task exactly
when item `i` passes `addTask`'s checks (truthy title, acceptable dueDate),
and an error descriptor exactly when it does not — failing items never abort
their siblings. -/
theorem bulkAddTasks_positional_results (parse : String → Option Int) (now : Int)
    (s : TMState) (items : List Dict) :
    (bulkAddTasks parse now s items).1.length = items.length ∧
    (bulkAddTasks parse now s items).1.map resultKind = items.map (itemOk parse) := by
  induction items generalizing s with
  | nil => exact ⟨rfl, rfl⟩
  | cons d rest ih =>
    have hkind := addTask_isOk_eq parse now s (dgetD d "title" Value.vNone)
      (dgetD d "priority" Value.vNone) (dgetD d "dueDate" Value.vNone)
    unfold bulkAddTasks
    cases ha : addTask parse now s (dgetD d "title" Value.vNone)
        (dgetD d "priority" Value.vNone) (dgetD d "dueDate" Value.vNone) with
    | mk r s1 =>
      rw [ha] at hkind
      cases r with
      | ok t =>
        refine ⟨by simp [(ih s1).1], ?_⟩
        simp only [List.map_cons]
        rw [(ih s1).2]
        have hi : itemOk parse d = true := by
          unfold itemOk
          rw [← hkind]
          rfl
        rw [hi]
        rfl
      | error e =>
        refine ⟨by simp [(ih s1).1], ?_⟩
        simp only [List.map_cons]
        rw [(ih s1).2]
        have hi : itemOk parse d = false := by
          unfold itemOk
          rw [← hkind]
          rfl
        rw [hi]
        rfl

/-! List helpers for the moved-task bookkeeping. -/

theorem map_eraseIdx {α β : Type} (l : List α) (f : α → β) (i : ℕ) :
    (l.eraseIdx i).map f = (l.map f).eraseIdx i := by
  induction l generalizing i with
  | nil => rfl
  | cons x xs ih =>
    cases i with
    | zero => rfl
    | succ j => simp [List.eraseIdx, ih]

theorem getElem_cons_eraseIdx_perm {α : Type} (l : List α) (i : ℕ) (h : i < l.length) :
    (l[i] :: l.eraseIdx i).Perm l := by
  induction l generalizing i with
  | nil => simp at h
  | cons x xs ih =>
    cases i with
    | zero => exact List.Perm.refl _
    | succ j =>
      have hj : j < xs.length := by simpa using h
      exact (List.Perm.swap x xs[j] (xs.eraseIdx j)).trans ((ih j hj).cons x)

theorem set_getElem_self_eq {α : Type} (l : List α) (i : ℕ) (h : i < l.length) :
    l.set i l[i] = l := by
  induction l generalizing i with
  | nil => rfl
  | cons x xs ih =>
    cases i with
    | zero => rfl
    | succ j =>
      have hj : j < xs.length := by simpa using h
      show x :: xs.set j xs[j] = x :: xs
      rw [ih j hj]

theorem nodup_getElem_not_mem_eraseIdx {α : Type} (l : List α) (i : ℕ) (h : i < l.length)
    (hn : l.Nodup) : l[i] ∉ l.eraseIdx i := by
  have hp := getElem_cons_eraseIdx_perm l i h
  have h2 : (l[i] :: l.eraseIdx i).Nodup := hp.nodup_iff.mpr hn
  exact (List.nodup_cons.mp h2).1

/-! Equation lemmas for `completeTask` and `updateTask`. -/

theorem completeTask_eq_found (now : Int) (s : TMState) (tid : Value) (i : ℕ)
    (hf : List.findIdx? (fun t => dget t "id" == tid) s.tasks = some i) :
    completeTask now s tid =
      (some (dset (dset ((s.tasks[i]?).getD []) "completed" (Value.vBool true))
          "completedAt" (Value.vInt now)),
       { s with tasks := s.tasks.eraseIdx i,
                completedTasks := s.completedTasks ++
                  [dset (dset ((s.tasks[i]?).getD []) "completed" (Value.vBool true))
                    "completedAt" (Value.vInt now)],
                events := s.events ++
                  [("taskCompleted",
                    dset (dset ((s.tasks[i]?).getD []) "completed" (Value.vBool true))
                      "completedAt" (Value.vInt now))] }) := by
  unfold completeTask
  rw [hf]

theorem completeTask_eq_notFound (now : Int) (s : TMState) (tid : Value)
    (hf : List.findIdx? (fun t => dget t "id" == tid) s.tasks = none) :
    completeTask now s tid = (none, s) := by
  unfold completeTask
  rw [hf]

theorem updateTask_eq_found (s : TMState) (tid : Value) (updates : List (String × Value))
    (i : ℕ) (hf : List.findIdx? (fun t => dget t "id" == tid) s.tasks = some i) :
    updateTask s tid updates =
      { s with tasks := s.tasks.set i
                 (updates.foldl (fun t kv => dset t kv.1 kv.2) ((s.tasks[i]?).getD [])),
               events := s.events ++
                 [("taskUpdated",
                   updates.foldl (fun t kv => dset t kv.1 kv.2) ((s.tasks[i]?).getD []))] } := by
  unfold updateTask
  rw [hf]

theorem updateTask_eq_notFound (s : TMState) (tid : Value) (updates : List (String × Value))
    (hf : List.findIdx? (fun t => dget t "id" == tid) s.tasks = none) :
    updateTask s tid updates = s := by
  unfold updateTask
  rw [hf]

/-! The id invariant along safe executions. -/

theorem goodIds_append_fresh (s : TMState) (t : Dict) (ev : List (String × Dict))
    (hg : GoodIds s) (hid : dget t "id" = Value.vInt ((s.idCounter : Int) + 1)) :
    GoodIds { s with idCounter := s.idCounter + 1, tasks := s.tasks ++ [t], events := ev } := by
  obtain ⟨hn, hb⟩ := hg
  have h1 : allIds { s with idCounter := s.idCounter + 1, tasks := s.tasks ++ [t], events := ev } = (openIds s ++ [Value.vInt ((s.idCounter : Int) + 1)]) ++ doneIds s := by
    simp [allIds, openIds, doneIds, hid]
  have hfresh : Value.vInt ((s.idCounter : Int) + 1) ∉ allIds s := by
    intro hmem
    obtain ⟨n, hn1, hn2⟩ := hb _ hmem
    have h2 : (s.idCounter : Int) + 1 = (n : Int) := by injection hn1
    have h3 : s.idCounter + 1 = n := by exact_mod_cast h2
    omega
  have hperm : ((openIds s ++ [Value.vInt ((s.idCounter : Int) + 1)]) ++ doneIds s).Perm
      (Value.vInt ((s.idCounter : Int) + 1) :: allIds s) :=
    (List.perm_append_singleton _ _).append_right _
  constructor
  · rw [h1, hperm.nodup_iff]
    exact List.nodup_cons.mpr ⟨hfresh, hn⟩
  · intro v hv
    rw [h1] at hv
    have hcast : ((s.idCounter + 1 : ℕ) : Int) = (s.idCounter : Int) + 1 := by push_cast; ring
    rcases List.mem_cons.mp (hperm.mem_iff.mp hv) with hv1 | hv2
    · exact ⟨s.idCounter + 1, by rw [hv1, ← hcast], Nat.le_refl _⟩
    · obtain ⟨n, hb1, hb2⟩ := hb v hv2
      exact ⟨n, hb1, hb2.trans (Nat.le_succ _)⟩

theorem allIds_mk (A B : List Dict) (c : ℕ) (ev : List (String × Dict)) :
    allIds { tasks := A, completedTasks := B, idCounter := c, events := ev } =
      A.map (fun t => dget t "id") ++ B.map (fun t => dget t "id") := rfl

theorem goodIds_addTask (parse : String → Option Int) (now : Int) (s : TMState)
    (title priority dueDate : Value) (hg : GoodIds s) :
    GoodIds (addTask parse now s title priority dueDate).2 := by
  rcases ddEval_ok_or_err parse dueDate with ⟨_, dd, hdd⟩ | ⟨_, e, hdd⟩
  · cases ht : truthy title with
    | false =>
      rw [addTask_invalid parse now s title priority dueDate dd hdd ht]
      obtain ⟨hn, hb⟩ := hg
      refine ⟨hn, ?_⟩
      intro v hv
      obtain ⟨n, h1, h2⟩ := hb v hv
      exact ⟨n, h1, h2.trans (Nat.le_succ _)⟩
    | true =>
      rw [addTask_success parse now s title priority dueDate dd hdd ht]
      exact goodIds_append_fresh s _ _ hg (by rw [dget_mkTask_id])
  · rw [addTask_ddErr parse now s title priority dueDate e hdd]
    exact hg

theorem goodIds_completeTask (now : Int) (s : TMState) (tid : Value) (hg : GoodIds s) :
    GoodIds (completeTask now s tid).2 := by
  cases hf : List.findIdx? (fun t => dget t "id" == tid) s.tasks with
  | none =>
    rw [completeTask_eq_notFound now s tid hf]
    exact hg
  | some i =>
    rw [completeTask_eq_found now s tid i hf]
    have hi : i < s.tasks.length := (List.findIdx?_eq_some_iff_findIdx_eq.mp hf).1
    obtain ⟨hn, hb⟩ := hg
    have hX : i < (s.tasks.map (fun t => dget t "id")).length := by simpa using hi
    have ht0 : (s.tasks[i]?).getD [] = s.tasks[i] := by
      rw [List.getElem?_eq_getElem hi]
      rfl
    have hid : dget (dset (dset ((s.tasks[i]?).getD []) "completed" (Value.vBool true))
        "completedAt" (Value.vInt now)) "id" = (s.tasks.map (fun t => dget t "id"))[i] := by
      rw [dget_dset_ne _ _ _ _ (by decide), dget_dset_ne _ _ _ _ (by decide), ht0,
        List.getElem_map]
    constructor
    · rw [allIds_mk, map_eraseIdx, List.map_append]
      simp only [List.map_cons, List.map_nil, hid]
      have p1 : ((s.completedTasks.map (fun t => dget t "id")) ++
          [(s.tasks.map (fun t => dget t "id"))[i]]).Perm
          ([(s.tasks.map (fun t => dget t "id"))[i]] ++
            s.completedTasks.map (fun t => dget t "id")) := List.perm_append_comm
      have p2 := p1.append_left ((s.tasks.map (fun t => dget t "id")).eraseIdx i)
      have p4 : (((s.tasks.map (fun t => dget t "id")).eraseIdx i ++
          [(s.tasks.map (fun t => dget t "id"))[i]]) ++
            s.completedTasks.map (fun t => dget t "id")).Perm
          (((s.tasks.map (fun t => dget t "id"))[i] ::
            (s.tasks.map (fun t => dget t "id")).eraseIdx i) ++
              s.completedTasks.map (fun t => dget t "id")) :=
        (List.perm_append_singleton _ _).append_right _
      have p5 : (((s.tasks.map (fun t => dget t "id"))[i] ::
          (s.tasks.map (fun t => dget t "id")).eraseIdx i) ++
            s.completedTasks.map (fun t => dget t "id")).Perm
          ((s.tasks.map (fun t => dget t "id")) ++
            s.completedTasks.map (fun t => dget t "id")) :=
        (getElem_cons_eraseIdx_perm _ i hX).append_right _
      have p6 := (p2.trans ((List.append_assoc _ _ _).symm ▸ (p4.trans p5)))
      exact p6.nodup_iff.mpr hn
    · intro v hv
      rw [allIds_mk, map_eraseIdx, List.map_append] at hv
      simp only [List.map_cons, List.map_nil, hid] at hv
      rcases List.mem_append.mp hv with hv1 | hv2
      · exact hb v (List.mem_append.mpr (Or.inl ((List.eraseIdx_sublist _ i).subset hv1)))
      · rcases List.mem_append.mp hv2 with hv3 | hv4
        · exact hb v (List.mem_append.mpr (Or.inr hv3))
        · have hv5 : v = (s.tasks.map (fun t => dget t "id"))[i] := by simpa using hv4
          exact hb v (List.mem_append.mpr (Or.inl (hv5 ▸ List.getElem_mem hX)))

theorem goodIds_updateTask (s : TMState) (tid : Value) (updates : List (String × Value))
    (hsafe : ∀ kv ∈ updates, kv.1 ≠ "id") (hg : GoodIds s) :
    GoodIds (updateTask s tid updates) := by
  cases hf : List.findIdx? (fun t => dget t "id" == tid) s.tasks with
  | none =>
    rw [updateTask_eq_notFound s tid updates hf]
    exact hg
  | some i =>
    rw [updateTask_eq_found s tid updates i hf]
    have hi : i < s.tasks.length := (List.findIdx?_eq_some_iff_findIdx_eq.mp hf).1
    have hX : i < (s.tasks.map (fun t => dget t "id")).length := by simpa using hi
    have ht0 : (s.tasks[i]?).getD [] = s.tasks[i] := by
      rw [List.getElem?_eq_getElem hi]
      rfl
    have hid : dget (updates.foldl (fun t kv => dset t kv.1 kv.2) ((s.tasks[i]?).getD []))
        "id" = (s.tasks.map (fun t => dget t "id"))[i] := by
      rw [dget_foldl_dset_ne updates _ "id" hsafe, ht0, List.getElem_map]
    have hsame : allIds { s with
          tasks := s.tasks.set i
            (updates.foldl (fun t kv => dset t kv.1 kv.2) ((s.tasks[i]?).getD [])),
          events := s.events ++
            [("taskUpdated",
              updates.foldl (fun t kv => dset t kv.1 kv.2) ((s.tasks[i]?).getD []))] } =
        allIds s := by
      rw [allIds_mk, List.map_set, hid, set_getElem_self_eq _ i hX]
      rfl
    obtain ⟨hn, hb⟩ := hg
    exact ⟨hsame ▸ hn, fun v hv => hb v (hsame ▸ hv)⟩

theorem goodIds_init : GoodIds initState := by
  constructor
  · exact List.nodup_nil
  · intro v hv
    simp [allIds, openIds, doneIds, initState] at hv

theorem safeReachable_goodIds (parse : String → Option Int) (s : TMState)
    (hr : SafeReachable parse s) : GoodIds s := by
  induction hr with
  | refl => exact goodIds_init
  | tail hab hbc ih =>
    cases hbc with
    | add now title priority dueDate => exact goodIds_addTask parse now _ title priority dueDate ih
    | complete now tid => exact goodIds_completeTask now _ tid ih
    | update tid updates =>
      rename_i hsafe
      exact goodIds_updateTask _ tid updates hsafe ih

/-- C6 counterexample: a state reachable through the implemented public
operations in which id 2 is present in the open AND in the completed
collection at once, because `updateTask` (line 56) writes the `id` key of a
patch straight onto an open task.  So "at every reachable state each id
resides in exactly one of the two collections" is false as stated. -/
theorem id_in_both_collections_reachable :
    Reachable parseDemo cexS4 ∧
    Value.vInt 2 ∈ openIds cexS4 ∧ Value.vInt 2 ∈ doneIds cexS4 := by
  refine ⟨?_, by decide, by decide⟩
  have h1 : Step parseDemo initState cexS1 :=
    Step.add 0 (Value.vStr "A") (Value.vStr "medium") Value.vNone initState
  have h2 : Step parseDemo cexS1 cexS2 :=
    Step.add 0 (Value.vStr "B") (Value.vStr "low") Value.vNone cexS1
  have h3 : Step parseDemo cexS2 cexS3 := Step.complete 3 (Value.vInt 2) cexS2
  have h4 : Step parseDemo cexS3 cexS4 :=
    Step.update (Value.vInt 1) [("id", Value.vInt 2)] cexS3
  exact Relation.ReflTransGen.tail (Relation.ReflTransGen.tail
    (Relation.ReflTransGen.tail (Relation.ReflTransGen.single h1) h2) h3) h4

/-- C6 (amended): in every state reachable through the public operations in
which no `updateTask` patch ever wrote the `id` key, the open and completed
collections hold disjoint id sets; `completeTask` on an id with no open task
returns `None` and leaves the state untouched; `completeTask` on an open id
returns the task with `completed` set, `completedAt` stamped to now, appended
to the completed collection and no longer present among the open tasks; and a
second `completeTask` on the same id returns `None` and changes nothing. -/
theorem completeTask_moves_once_safe (parse : String → Option Int) (now now2 : Int)
    (s : TMState) (tid : Value) (hr : SafeReachable parse s) :
    (∀ v, v ∈ openIds s → v ∈ doneIds s → False) ∧
    ((∀ t ∈ s.tasks, (dget t "id" == tid) = false) → completeTask now s tid = (none, s)) ∧
    ((∃ t ∈ s.tasks, (dget t "id" == tid) = true) →
      ∃ t1, (completeTask now s tid).1 = some t1 ∧
        dget t1 "completed" = Value.vBool true ∧
        dget t1 "completedAt" = Value.vInt now ∧
        (dget t1 "id" == tid) = true ∧
        (completeTask now s tid).2.completedTasks = s.completedTasks ++ [t1] ∧
        (∀ t ∈ (completeTask now s tid).2.tasks, (dget t "id" == tid) = false) ∧
        completeTask now2 (completeTask now s tid).2 tid =
          (none, (completeTask now s tid).2)) := by
  obtain ⟨hn, hb⟩ := safeReachable_goodIds parse s hr
  have hnsplit := List.nodup_append.mp hn
  refine ⟨?_, ?_, ?_⟩
  · intro v hv1 hv2
    exact hnsplit.2.2 hv1 hv2
  · intro h
    exact completeTask_eq_notFound now s tid (List.findIdx?_eq_none_iff.mpr h)
  · intro h
    obtain ⟨t, htmem, htp⟩ := h
    have hex : ∃ x ∈ s.tasks, (fun t => dget t "id" == tid) x = true := ⟨t, htmem, htp⟩
    have hfi : List.findIdx? (fun t => dget t "id" == tid) s.tasks =
        some (List.findIdx (fun t => dget t "id" == tid) s.tasks) :=
      List.findIdx?_eq_some_of_exists hex
    have hi : List.findIdx (fun t => dget t "id" == tid) s.tasks < s.tasks.length :=
      List.findIdx_lt_length_of_exists hex
    have hpi : (dget s.tasks[List.findIdx (fun t => dget t "id" == tid) s.tasks] "id"
        == tid) = true := @List.findIdx_getElem _ (fun t => dget t "id" == tid) s.tasks hi
    have hcomp := completeTask_eq_found now s tid
      (List.findIdx (fun t => dget t "id" == tid) s.tasks) hfi
    rw [List.getElem?_eq_getElem hi, Option.getD_some] at hcomp
    have h6 : ∀ t2 ∈ s.tasks.eraseIdx (List.findIdx (fun t => dget t "id" == tid) s.tasks),
        (dget t2 "id" == tid) = false := by
      intro t2 ht2
      cases hq : (dget t2 "id" == tid) with
      | false => rfl
      | true =>
        exfalso
        have hXi : List.findIdx (fun t => dget t "id" == tid) s.tasks <
            (s.tasks.map (fun t => dget t "id")).length := by simpa using hi
        have heq1 : dget t2 "id" = tid := by simpa using hq
        have heq2 : dget s.tasks[List.findIdx (fun t => dget t "id" == tid) s.tasks] "id"
            = tid := by simpa using hpi
        have hmem1 : dget t2 "id" ∈
            (s.tasks.map (fun t => dget t "id")).eraseIdx
              (List.findIdx (fun t => dget t "id" == tid) s.tasks) := by
          rw [← map_eraseIdx]
          exact List.mem_map_of_mem _ ht2
        have hnot := nodup_getElem_not_mem_eraseIdx (s.tasks.map (fun t => dget t "id"))
          (List.findIdx (fun t => dget t "id" == tid) s.tasks) hXi hnsplit.1
        rw [List.getElem_map] at hnot
        have heq3 : dget t2 "id" =
            dget s.tasks[List.findIdx (fun t => dget t "id" == tid) s.tasks] "id" :=
          heq1.trans heq2.symm
        rw [heq3] at hmem1
        exact hnot hmem1
    refine ⟨dset (dset s.tasks[List.findIdx (fun t => dget t "id" == tid) s.tasks]
      "completed" (Value.vBool true)) "completedAt" (Value.vInt now),
      ?_, ?_, ?_, ?_, ?_, ?_, ?_⟩
    · rw [hcomp]
    · rw [dget_dset_ne _ _ _ _ (by decide), dget_dset_self]
    · rw [dget_dset_self]
    · rw [dget_dset_ne _ _ _ _ (by decide), dget_dset_ne _ _ _ _ (by decide)]
      exact hpi
    · rw [hcomp]
    · rw [hcomp]
      exact h6
    · rw [hcomp]
      exact completeTask_eq_notFound now2 _ tid (List.findIdx?_eq_none_iff.mpr h6)

/-- C6 witness: the amended statement at a concrete reachable state. -/
theorem completeTask_moves_once_safe_witness :
    SafeReachable parseDemo stateOne ∧
    ((∀ v, v ∈ openIds stateOne → v ∈ doneIds stateOne → False) ∧
    ((∀ t ∈ stateOne.tasks, (dget t "id" == Value.vInt 1) = false) →
      completeTask 5 stateOne (Value.vInt 1) = (none, stateOne)) ∧
    ((∃ t ∈ stateOne.tasks, (dget t "id" == Value.vInt 1) = true) →
      ∃ t1, (completeTask 5 stateOne (Value.vInt 1)).1 = some t1 ∧
        dget t1 "completed" = Value.vBool true ∧
        dget t1 "completedAt" = Value.vInt 5 ∧
        (dget t1 "id" == Value.vInt 1) = true ∧
        (completeTask 5 stateOne (Value.vInt 1)).2.completedTasks =
          stateOne.completedTasks ++ [t1] ∧
        (∀ t ∈ (completeTask 5 stateOne (Value.vInt 1)).2.tasks,
          (dget t "id" == Value.vInt 1) = false) ∧
        completeTask 6 (completeTask 5 stateOne (Value.vInt 1)).2 (Value.vInt 1) =
          (none, (completeTask 5 stateOne (Value.vInt 1)).2))) :=
  ⟨Relation.ReflTransGen.single (SafeStep.add 0 (Value.vStr "Complete project")
      (Value.vStr "high") (Value.vStr "2024-01-15") initState),
   completeTask_moves_once_safe parseDemo 5 6 stateOne (Value.vInt 1)
     (Relation.ReflTransGen.single (SafeStep.add 0 (Value.vStr "Complete project")
       (Value.vStr "high") (Value.vStr "2024-01-15") initState))⟩

end TaskMgr
